import Mathlib

/-!
Verification of the terra terrain-engine core against its specification.

The Rust sources are shallowly embedded:
* machine integers (`u64`, `u32`, `u16`, `u8`) become `Nat` with explicit
  `% 2^w` wherever wrap-around is possible;
* `f64`/`f32` arithmetic is modelled by exact real arithmetic over `ℝ`
  (the claims settled on real numbers have margins of several orders of
  magnitude, far beyond double rounding error);
* fallible operations (`panic!`, `unwrap`, `assert!`, `anyhow::bail!`)
  return `Option`/sum types, `none` standing for a panic.
-/

namespace Terra

/-! ## VNode (src/terrain/quadtree/node.rs)

`VNode(u64)` packs `(level << 56) | (face << 53) | (y << 26) | (x)`.
For arguments within the debug-asserted ranges (`face < 6`,
`x, y < 2^26 ∧ x, y < 2^level`) the four fields occupy disjoint bit
ranges, so the bit-or equals addition; we write the packing as a sum
(reduced mod `2^64`, the `u64` width). -/

structure VNode where
  val : Nat
  deriving DecidableEq, Repr

/-- `VNode::new(level, face, x, y)`:
`(level as u64) << 56 | (face as u64) << 53 | (y as u64) << 26 | (x as u64)`. -/
def VNode.new (level face x y : Nat) : VNode :=
  ⟨(level * 2 ^ 56 + face * 2 ^ 53 + y * 2 ^ 26 + x) % 2 ^ 64⟩

/-- `VNode::x`: `self.0 as u32 & 0x3ffffff`, i.e. the low 26 bits. -/
def VNode.x (n : VNode) : Nat := n.val % 2 ^ 26

/-- `VNode::y`: `(self.0 >> 26) as u32 & 0x3ffffff`. -/
def VNode.y (n : VNode) : Nat := n.val / 2 ^ 26 % 2 ^ 26

/-- `VNode::level`: `(self.0 >> 56) as u8`. -/
def VNode.level (n : VNode) : Nat := n.val / 2 ^ 56 % 2 ^ 8

/-- `VNode::face`: `(self.0 >> 53) as u8 & 0x7`. -/
def VNode.face (n : VNode) : Nat := n.val / 2 ^ 53 % 8

/-- `VNode::roots()`. -/
def VNode.roots : List VNode :=
  [VNode.new 0 0 0 0, VNode.new 0 1 0 0, VNode.new 0 2 0 0,
   VNode.new 0 3 0 0, VNode.new 0 4 0 0, VNode.new 0 5 0 0]

/-- `VNode::parent()`: none at level 0, otherwise the node one level up
together with the child index `(x % 2) + (y % 2) * 2`. -/
def VNode.parent (n : VNode) : Option (VNode × Nat) :=
  if n.level = 0 then none
  else some (VNode.new (n.level - 1) n.face (n.x / 2) (n.y / 2),
             n.x % 2 + n.y % 2 * 2)

/-- `VNode::children()`: the `assert!(self.level() < 31)` is modelled by
returning `none` (panic) when the assertion fails. -/
def VNode.children (n : VNode) : Option (List VNode) :=
  if n.level < 31 then
    some [VNode.new (n.level + 1) n.face (n.x * 2) (n.y * 2),
          VNode.new (n.level + 1) n.face (n.x * 2 + 1) (n.y * 2),
          VNode.new (n.level + 1) n.face (n.x * 2) (n.y * 2 + 1),
          VNode.new (n.level + 1) n.face (n.x * 2 + 1) (n.y * 2 + 1)]
  else none

/-- Loop body of `VNode::find_ancestor`: while `!visit(node)` move to the
parent, accumulating `offset += (x & 1, y & 1) << generations`.
`x & 1 = x % 2` and `v * (1 << g) = v * 2^g`.  The offsets are `u32`s but
stay below `2^26` (at most `level ≤ 22` bits are accumulated), so no
wrap-around is modelled. -/
def VNode.findAncestorAux (visit : VNode → Bool) (node : VNode)
    (generations ox oy : Nat) : Option (VNode × Nat × Nat × Nat) :=
  if visit node then some (node, generations, ox, oy)
  else if h : node.level = 0 then none
  else
    VNode.findAncestorAux visit
      (VNode.new (node.level - 1) node.face (node.x / 2) (node.y / 2))
      (generations + 1)
      (ox + node.x % 2 * 2 ^ generations)
      (oy + node.y % 2 * 2 ^ generations)
termination_by node.level
decreasing_by
  simp only [VNode.new, VNode.level, VNode.face, VNode.x, VNode.y] at h ⊢
  have h1 : node.val / 2 ^ 56 % 2 ^ 8 < 2 ^ 8 := Nat.mod_lt _ (by norm_num)
  have h2 : node.val / 2 ^ 53 % 8 < 8 := Nat.mod_lt _ (by norm_num)
  have h3 : node.val % 2 ^ 26 < 2 ^ 26 := Nat.mod_lt _ (by norm_num)
  have h4 : node.val / 2 ^ 26 % 2 ^ 26 < 2 ^ 26 := Nat.mod_lt _ (by norm_num)
  have h5 : (node.val / 2 ^ 56 % 2 ^ 8 - 1) * 2 ^ 56 +
      node.val / 2 ^ 53 % 8 * 2 ^ 53 +
      node.val / 2 ^ 26 % 2 ^ 26 / 2 * 2 ^ 26 + node.val % 2 ^ 26 / 2 <
      2 ^ 64 := by omega
  rw [Nat.mod_eq_of_lt h5]
  generalize node.val / 2 ^ 56 % 2 ^ 8 = A at *
  generalize node.val / 2 ^ 53 % 8 = B at *
  generalize node.val / 2 ^ 26 % 2 ^ 26 = D at *
  generalize node.val % 2 ^ 26 = E at *
  omega

/-- `VNode::find_ancestor(visit)`. -/
def VNode.findAncestor (visit : VNode → Bool) (n : VNode) :
    Option (VNode × Nat × Nat × Nat) :=
  VNode.findAncestorAux visit n 0 0 0

/-! ## MapFile (src/mapfile.rs)

The sled database is modelled as its abstract contents: the value stored
under the `"version"` key (a byte string) plus the two trees `tiles` and
`textures` as association lists.  Database I/O errors are fatal in the
source (every database call is `.unwrap()`ed) and are not modelled. -/

/-- Modelled from the spec: `LayerType` (defined in
`src/terrain/tile_cache.rs`, which is not part of the sources) is the
enumeration {Heightmaps, Displacements, Albedo, Normals, Roughness}. -/
inductive LayerType where
  | Heightmaps | Displacements | Albedo | Normals | Roughness
  deriving DecidableEq, Repr

/-- `TileState` from src/mapfile.rs. -/
inductive TileState where
  | Missing | Base | Generated | GpuOnly | MissingBase
  deriving DecidableEq, Repr

/-- `TileMeta` from src/mapfile.rs: the record persisted in the `tiles`
tree. -/
structure TileMeta where
  crc32 : Nat
  state : TileState
  deriving DecidableEq, Repr

/-- Key of the `tiles` tree: `bincode::serialize(&(layer, node))`.
bincode serialization is injective on `(LayerType, VNode)`, so the key is
modelled as the pair itself. -/
structure TileKey where
  layer : LayerType
  node : VNode
  deriving DecidableEq, Repr

/-- The `tiles` tree. -/
abbrev TilesTree := List (TileKey × TileMeta)

/-- Abstract state of the metadata database
(`${TERRA_DIRECTORY}/tiles/meta`). The `textures` tree's values are
irrelevant to the claims and kept as raw bytes. -/
structure Db where
  version : Option (List Nat)
  tiles : TilesTree
  textures : List (List Nat × List Nat)

/-- Is a byte a UTF-8 continuation byte (`0b10xxxxxx`)? -/
def utf8Cont (b : Nat) : Bool := 0x80 ≤ b && b ≤ 0xBF

/-- RFC 3629 UTF-8 validity of a byte sequence, as checked by Rust's
`std::str::from_utf8`. -/
def validUtf8 : List Nat → Bool
  | [] => true
  | b :: rest =>
    if b ≤ 0x7F then validUtf8 rest
    else if 0xC2 ≤ b && b ≤ 0xDF then
      match rest with
      | c1 :: r => utf8Cont c1 && validUtf8 r
      | [] => false
    else if b = 0xE0 then
      match rest with
      | c1 :: c2 :: r => (0xA0 ≤ c1 && c1 ≤ 0xBF) && utf8Cont c2 && validUtf8 r
      | _ => false
    else if (0xE1 ≤ b && b ≤ 0xEC) || b = 0xEE || b = 0xEF then
      match rest with
      | c1 :: c2 :: r => utf8Cont c1 && utf8Cont c2 && validUtf8 r
      | _ => false
    else if b = 0xED then
      match rest with
      | c1 :: c2 :: r => (0x80 ≤ c1 && c1 ≤ 0x9F) && utf8Cont c2 && validUtf8 r
      | _ => false
    else if b = 0xF0 then
      match rest with
      | c1 :: c2 :: c3 :: r =>
        (0x90 ≤ c1 && c1 ≤ 0xBF) && utf8Cont c2 && utf8Cont c3 && validUtf8 r
      | _ => false
    else if 0xF1 ≤ b && b ≤ 0xF3 then
      match rest with
      | c1 :: c2 :: c3 :: r =>
        utf8Cont c1 && utf8Cont c2 && utf8Cont c3 && validUtf8 r
      | _ => false
    else if b = 0xF4 then
      match rest with
      | c1 :: c2 :: c3 :: r =>
        (0x80 ≤ c1 && c1 ≤ 0x8F) && utf8Cont c2 && utf8Cont c3 && validUtf8 r
      | _ => false
    else false

/-- The numeric value of a nonempty all-ASCII-digit byte string, `none`
otherwise. -/
def digitsVal : List Nat → Option Nat
  | [] => none
  | [b] => if 48 ≤ b && b ≤ 57 then some (b - 48) else none
  | b :: rest =>
    if 48 ≤ b && b ≤ 57 then
      (digitsVal rest).map fun v => (b - 48) * 10 ^ rest.length + v
    else none

/-- Rust's `str::parse::<i32>()` on the UTF-8 bytes of the string:
optional sign, one or more ASCII digits, result within `i32` range.
(A multi-byte character is never an ASCII digit, so working on the raw
bytes is faithful.) -/
def parseI32 (bs : List Nat) : Option Int :=
  match bs with
  | [] => none
  | b :: rest =>
    if b = 43 then (digitsVal rest).bind fun v =>
      if v ≤ 2147483647 then some (v : Int) else none
    else if b = 45 then (digitsVal rest).bind fun v =>
      if v ≤ 2147483648 then some (-(v : Int)) else none
    else (digitsVal bs).bind fun v =>
      if v ≤ 2147483647 then some (v : Int) else none

/-- `MapFile::new` version handling (src/mapfile.rs lines 63–83):
```
let version = db.get("version").unwrap();
let version = version.as_ref()
    .map(|v| std::str::from_utf8(v).unwrap_or("0"))
    .map(|s| s.parse())
    .unwrap_or(Ok(CURRENT_VERSION))
    .unwrap();
if version < CURRENT_VERSION { db.drop_tree("tiles"); db.drop_tree("textures"); }
db.insert("version", "2");
```
Returns `none` when the final `.unwrap()` panics (stored bytes are valid
UTF-8 but do not parse as an integer). -/
def mapfileNew (db : Db) : Option Db :=
  let parsed : Option Int :=
    match db.version with
    | none => some 2
    | some v => parseI32 (if validUtf8 v then v else [48])
  match parsed with
  | none => none
  | some ver =>
    let db1 := if ver < 2 then { db with tiles := [], textures := [] } else db
    some { db1 with version := some [50] }

/-- `tiles.insert(key, value)` (sled insert = overwrite). -/
def tilesInsert (t : TilesTree) (k : TileKey) (m : TileMeta) : TilesTree :=
  (k, m) :: t.filter fun kv => kv.1 ≠ k

/-- `tiles.get(key)`. -/
def tilesGet (t : TilesTree) (k : TileKey) : Option TileMeta :=
  (t.find? fun kv => kv.1 = k).map Prod.snd

/-- `MapFile::write_tile(layer, node, data, base)`: writes the bytes to
disk and persists `TileMeta { crc32: 0, state: Base or Generated }`.
Returns the updated tiles tree and the written file contents. -/
def writeTile (t : TilesTree) (layer : LayerType) (node : VNode)
    (data : List Nat) (base : Bool) : TilesTree × List Nat :=
  (tilesInsert t ⟨layer, node⟩
     ⟨0, if base then TileState.Base else TileState.Generated⟩, data)

/-- `MapFile::reload_tile_state(layer, node, base)`; `exists` abstracts
`Self::tile_path(layer, node).exists()`.  Returns the reported state and
the updated tiles tree. -/
def reloadTileState (t : TilesTree) (layer : LayerType) (node : VNode)
    (base fileExists : Bool) : TileState × TilesTree :=
  let targetState :=
    if base && fileExists then TileState.Base
    else if base then TileState.MissingBase
    else if fileExists then TileState.Generated
    else TileState.Missing
  match tilesGet t ⟨layer, node⟩ with
  | some meta =>
    if meta.state = targetState then (meta.state, t)
    else (targetState, tilesInsert t ⟨layer, node⟩ ⟨0, targetState⟩)
  | none => (targetState, tilesInsert t ⟨layer, node⟩ ⟨0, targetState⟩)

/-- Outcome of `MapFile::read_tile`. -/
inductive ReadTileResult where
  /-- `Ok(data)` -/
  | ok (data : List Nat)
  /-- `anyhow::bail!("Tile missing: ...")` -/
  | tileMissing
  /-- `panic!("Tile download failed ...")` -/
  | panicked
  deriving DecidableEq, Repr

/-- Whether `read_tile` attempts a remote download for this layer
(the `LayerType::Albedo | LayerType::Heightmaps | LayerType::Roughness`
match arm). -/
def downloadableLayer : LayerType → Bool
  | LayerType.Albedo => true
  | LayerType.Heightmaps => true
  | LayerType.Roughness => true
  | _ => false

/-- `MapFile::read_tile(layer, node)` (src/mapfile.rs lines 91–116).
`fileExists`/`fileContents` abstract the tile file on disk;
`httpSuccess`/`httpBody` abstract the HTTP response for the tile URL
(transport-level errors, which propagate as distinct `Err` values, are
not modelled).  Returns the outcome together with the `TileMeta` written
through `write_tile` (if any). -/
def readTile (layer : LayerType) (fileExists : Bool) (fileContents : List Nat)
    (httpSuccess : Bool) (httpBody : List Nat) :
    ReadTileResult × Option TileMeta :=
  if fileExists then (ReadTileResult.ok fileContents, none)
  else if downloadableLayer layer then
    if httpSuccess then
      (ReadTileResult.ok httpBody, some ⟨0, TileState.Base⟩)
    else (ReadTileResult.panicked, none)
  else (ReadTileResult.tileMissing, none)

/-! ## State::generate_displacements (src/generate/mod.rs lines 436–532)

The fields of `State` that the displacement generator reads, and the
reprojected heightmap store `self.heightmaps` as an abstract sample
function `hget (tile index) x y band` (`ReprojectedRaster::get`).  The
sample scalar (`f32` in the source) is kept as an abstract type with a
zero, so the data layout is independent of float semantics; the writer's
`write_f32::<LittleEndian>` calls are modelled as emitting the sequence
of written values. -/

structure DispParams where
  /-- `self.heights_resolution` (u16). -/
  heightsResolution : Nat
  /-- `self.heightmap_resolution` (u16). -/
  heightmapResolution : Nat
  /-- `self.skirt` (u16). -/
  skirt : Nat
  /-- `self.resolution_ratio` (u16). -/
  resolutionRatio : Nat
  /-- `self.max_texture_present_level` (u8). -/
  maxTexturePresentLevel : Nat

/-- `tile_from_node[&node]`: the `HashMap` built from
`self.nodes.iter().cloned().enumerate()`; on duplicate keys the last
insert wins.  `none` models the panicking lookup of an absent key. -/
def tileFromNode (nodes : List VNode) (n : VNode) : Option Nat :=
  ((nodes.enum.filter fun p => p.2 = n).getLast?).map Prod.fst

/-- The `(heightmap, offset, step)` selection of `generate_displacements`
for tile `i`: when the node is deeper than `max_texture_present_level`,
climb to the lowest ancestor at or below that level and scale the offset
(`offset *= (heightmap_resolution - 2*skirt) as u32 / offset_scale`,
then cast to `u16`, hence `% 65536`; the intermediate `u32` wrap cannot
change the low 16 bits); otherwise use tile `i` itself with
`step = (heightmap_resolution - 2*skirt - 1) / (heights_resolution - 1)`.
`none` models the panics (`tile_from_node` miss, `find_ancestor`'s
`.unwrap()`, index out of bounds).  The `u16` subtractions/divisions
assume the non-degenerate configurations the builder produces
(`heights_resolution ≥ 2`, `heightmap_resolution > 2*skirt`). -/
def dispSource (p : DispParams) (nodes : List VNode) (i : Nat) :
    Option (Nat × Nat × Nat × Nat) :=
  match nodes[i]? with
  | none => none
  | some node =>
    if node.level > p.maxTexturePresentLevel then
      match VNode.findAncestor
          (fun a => a.level ≤ p.maxTexturePresentLevel) node with
      | none => none
      | some (anc, gen, ox, oy) =>
        match tileFromNode nodes anc with
        | none => none
        | some ancIdx =>
          let offsetScale := 2 ^ gen
          let step := p.resolutionRatio >>> gen
          let m := (p.heightmapResolution - 2 * p.skirt) / offsetScale
          some (ancIdx, ox * m % 65536, oy * m % 65536, step)
    else
      some (i, 0, 0,
        (p.heightmapResolution - 2 * p.skirt - 1) /
          (p.heightsResolution - 1))

/-- The inner double loop of `generate_displacements`: for each sample
`(x, y)` of the `R × R` grid it writes the four channels
`(0.0, height, 0.0, 0.0)` where `height = heightmaps.get(heightmap,
x*step + offset.x + skirt, y*step + offset.y + skirt, 0)` (positions are
`u16`, hence `% 65536`). -/
def dispTileData {α : Type} [Zero α] (hget : Nat → Nat → Nat → Nat → α)
    (hm ox oy step skirt R : Nat) : List α :=
  (List.range R).flatMap fun y =>
    (List.range R).flatMap fun x =>
      [0, hget hm ((x * step + ox + skirt) % 65536)
            ((y * step + oy + skirt) % 65536) 0, 0, 0]

/-- One displacement tile as produced by `generate_displacements`
(`none` when the source selection panics). -/
def generateDisplacementTile {α : Type} [Zero α]
    (p : DispParams) (nodes : List VNode)
    (hget : Nat → Nat → Nat → Nat → α) (i : Nat) : Option (List α) :=
  (dispSource p nodes i).map fun r =>
    dispTileData hget r.1 r.2.1 r.2.2.1 r.2.2.2 p.skirt p.heightsResolution

/-! ## VNode geometry (src/terrain/quadtree/node.rs)

`f64` arithmetic is modelled over `ℝ`.  The claims settled here have
margins of many orders of magnitude, far beyond double rounding error. -/

/-- cgmath `Vector3<f64>`. -/
structure Vec3 where
  x : ℝ
  y : ℝ
  z : ℝ

/-- cgmath `dot`. -/
def Vec3.dot (a b : Vec3) : ℝ := a.x * b.x + a.y * b.y + a.z * b.z

/-- cgmath `cross`. -/
def Vec3.cross (a b : Vec3) : Vec3 :=
  ⟨a.y * b.z - a.z * b.y, a.z * b.x - a.x * b.z, a.x * b.y - a.y * b.x⟩

/-- Unary `-` on `Vector3`. -/
def Vec3.neg (a : Vec3) : Vec3 := ⟨-a.x, -a.y, -a.z⟩

/-- Componentwise subtraction. -/
def Vec3.sub (a b : Vec3) : Vec3 := ⟨a.x - b.x, a.y - b.y, a.z - b.z⟩

/-- Scalar multiplication. -/
def Vec3.smul (c : ℝ) (a : Vec3) : Vec3 := ⟨c * a.x, c * a.y, c * a.z⟩

/-- cgmath `magnitude`. -/
noncomputable def Vec3.magnitude (a : Vec3) : ℝ := Real.sqrt (a.dot a)

/-- cgmath `normalize`: `self * (1 / magnitude)`. -/
noncomputable def Vec3.normalize (a : Vec3) : Vec3 :=
  Vec3.smul (1 / a.magnitude) a

/-- cgmath `distance2`: squared distance between two points. -/
def Vec3.distance2 (a b : Vec3) : ℝ := (b.sub a).dot (b.sub a)

/-- `EARTH_RADIUS` (src/generate/mod.rs): 6371000.0 m. -/
def EARTH_RADIUS : ℝ := 6371000

/-- `EARTH_CIRCUMFERENCE = 2.0 * PI * EARTH_RADIUS`. -/
noncomputable def EARTH_CIRCUMFERENCE : ℝ := 2 * Real.pi * EARTH_RADIUS

/-- `ROOT_SIDE_LENGTH = (EARTH_CIRCUMFERENCE * 0.25) as f32`. -/
noncomputable def ROOT_SIDE_LENGTH : ℝ := EARTH_CIRCUMFERENCE * 0.25

/-- Rust `f64::signum` (no NaN and no negative zero over `ℝ`). -/
noncomputable def rustSignum (t : ℝ) : ℝ := if t < 0 then -1 else 1

/-- The forward face warp applied to each face coordinate in
`fspace_to_cspace`:
`x.signum() * (1.4511 - (1.4511*1.4511 - 1.8044*x.abs()).sqrt()) / 0.9022`. -/
noncomputable def warp (t : ℝ) : ℝ :=
  rustSignum t * (1.4511 - Real.sqrt (1.4511 * 1.4511 - 1.8044 * |t|)) /
    0.9022

/-- The inverse warp applied in `cspace_to_fspace`:
`x * (1.4511 + (1.0 - 1.4511) * x.abs())`. -/
noncomputable def unwarp (t : ℝ) : ℝ := t * (1.4511 + (1 - 1.4511) * |t|)

/-- `VNode::fspace_to_cspace`.  The `_ => unreachable!()` arm (face ≥ 6,
a panic) is mapped to the origin; every theorem below constrains
`face < 6`. -/
noncomputable def VNode.fspaceToCspace (n : VNode) (x y : ℝ) : Vec3 :=
  let wx := warp x
  let wy := warp y
  match n.face with
  | 0 => ⟨1, wx, -wy⟩
  | 1 => ⟨-1, -wx, -wy⟩
  | 2 => ⟨wx, 1, wy⟩
  | 3 => ⟨-wx, -1, wy⟩
  | 4 => ⟨wx, -wy, 1⟩
  | 5 => ⟨-wx, -wy, -1⟩
  | _ => ⟨0, 0, 0⟩

/-- `VNode::grid_position_cspace(x, y, skirt, resolution)`.  The
denominator `resolution - 1 - 2*skirt` is `u16` arithmetic (underflow
panics in the source; callers keep `resolution ≥ 1 + 2*skirt`). -/
noncomputable def VNode.gridPositionCspace (n : VNode) (x y : ℤ)
    (skirt resolution : Nat) : Vec3 :=
  let fx : ℝ := ((x : ℝ) - (skirt : ℝ)) /
    ((resolution - 1 - 2 * skirt : Nat) : ℝ)
  let fy : ℝ := ((y : ℝ) - (skirt : ℝ)) /
    ((resolution - 1 - 2 * skirt : Nat) : ℝ)
  let scale : ℝ := 2 / ((2 ^ n.level : Nat) : ℝ)
  n.fspaceToCspace (((n.x : ℝ) + fx) * scale - 1)
    (((n.y : ℝ) + fy) * scale - 1)

/-- The cell-registered sample fraction of `cell_position_cspace`:
`((x - skirt as i32) as f64 + 0.5) / (resolution - 2*skirt) as f64`. -/
noncomputable def cellFrac (x : ℤ) (skirt resolution : Nat) : ℝ :=
  (((x : ℝ) - (skirt : ℝ)) + 0.5) / ((resolution - 2 * skirt : Nat) : ℝ)

/-- `VNode::cell_position_cspace(x, y, skirt, resolution)`. -/
noncomputable def VNode.cellPositionCspace (n : VNode) (x y : ℤ)
    (skirt resolution : Nat) : Vec3 :=
  let fx := cellFrac x skirt resolution
  let fy := cellFrac y skirt resolution
  let scale : ℝ := 2 / ((2 ^ n.level : Nat) : ℝ)
  n.fspaceToCspace (((n.x : ℝ) + fx) * scale - 1)
    (((n.y : ℝ) + fy) * scale - 1)

/-- `VNode::cspace_to_fspace`: the guards of the `match` are tried in
source order; `none` models the
`panic!("Coordinate is not on unit cube surface")` arm. -/
noncomputable def cspaceToFspace (c : Vec3) : Option (Nat × ℝ × ℝ) :=
  open Classical in
  (if c.x = 1 then some ((0 : Nat), c.y, -c.z)
   else if c.x = -1 then some (1, -c.y, -c.z)
   else if c.y = 1 then some (2, c.x, c.z)
   else if c.y = -1 then some (3, -c.x, c.z)
   else if c.z = 1 then some (4, c.x, -c.y)
   else if c.z = -1 then some (5, -c.x, -c.y)
   else none).map fun t => (t.1, unwarp t.2.1, unwarp t.2.2)

/-- Rust `f64 as u32`: saturating toward `[0, 2^32 - 1]`. -/
noncomputable def f64AsU32 (t : ℝ) : Nat := min (Int.toNat ⌊t⌋) (2 ^ 32 - 1)

/-- Rust `f64::fract` = `self - self.trunc()`. -/
noncomputable def rustFract (t : ℝ) : ℝ :=
  if t < 0 then t - ⌈t⌉ else t - ⌊t⌋

/-- `VNode::from_cspace(cspace, level)`; the `f32` casts of the
fractional parts are dropped (real model). -/
noncomputable def fromCspace (c : Vec3) (level : Nat) :
    Option (VNode × ℝ × ℝ) :=
  (cspaceToFspace c).map fun t =>
    let x := (t.2.1 * 0.5 + 0.5) * ((2 ^ level : Nat) : ℝ)
    let y := (t.2.2 * 0.5 + 0.5) * ((2 ^ level : Nat) : ℝ)
    (VNode.new level t.1 (f64AsU32 x) (f64AsU32 y), rustFract x, rustFract y)

/-- `MIN_RADIUS = EARTH_RADIUS - 1000.0` (in `VNode::distance2`). -/
def MIN_RADIUS : ℝ := EARTH_RADIUS - 1000

/-- `MAX_RADIUS = EARTH_RADIUS + 9000.0`. -/
def MAX_RADIUS : ℝ := EARTH_RADIUS + 9000

/-- `VNode::min_distance`:
`ROOT_SIDE_LENGTH as f64 * 2.0 / (1u32 << self.level()) as f64`. -/
noncomputable def VNode.minDistance (n : VNode) : ℝ :=
  ROOT_SIDE_LENGTH * 2 / ((2 ^ n.level : Nat) : ℝ)

/-- The `corners` array of `VNode::distance2`. -/
noncomputable def vnodeCorners (n : VNode) : Fin 4 → Vec3 :=
  ![n.gridPositionCspace 0 0 0 2, n.gridPositionCspace 1 0 0 2,
    n.gridPositionCspace 1 1 0 2, n.gridPositionCspace 0 1 0 2]

/-- The `normals` array of `VNode::distance2`:
`corners[i].cross(-corners[(i+1) % 4])`. -/
noncomputable def vnodeNormals (n : VNode) : Fin 4 → Vec3 := fun i =>
  (vnodeCorners n i).cross ((vnodeCorners n (i + 1)).neg)

open Classical in
/-- `VNode::distance2(point)`.  The edge loop folds `min` starting from
`f64::INFINITY` over the four edge distances, which equals the nested
`min` of the four; the face loop is the `foldl` below. -/
noncomputable def VNode.distance2 (n : VNode) (point : Vec3) : ℝ :=
  let c := vnodeCorners n
  let nm := vnodeNormals n
  if 0 ≤ (nm 0).dot point ∧ 0 ≤ (nm 1).dot point ∧
      0 ≤ (nm 2).dot point ∧ 0 ≤ (nm 3).dot point then
    -- Top and bottom
    let length2 := point.dot point
    if MIN_RADIUS * MIN_RADIUS < length2 ∧
        length2 < MAX_RADIUS * MAX_RADIUS then 0
    else
      let length := Real.sqrt length2
      let d := max (length - MAX_RADIUS) (MIN_RADIUS - length)
      d * d
  else
    -- Edges
    let edge : Fin 4 → ℝ := fun i =>
      let corner := (c i).normalize
      Vec3.distance2
        (Vec3.smul (max MIN_RADIUS (min MAX_RADIUS (point.dot corner)))
          corner) point
    let d2 := min (min (min (edge 0) (edge 1)) (edge 2)) (edge 3)
    -- Faces
    let faceCond : Fin 4 → Prop := fun i =>
      (nm i).dot point < 0 ∧ 0 < ((c i).cross (nm i)).dot point ∧
      0 < ((c (i + 1)).neg.cross (nm i)).dot (point.sub (c (i + 1)))
    let faceVal : Fin 4 → ℝ := fun i =>
      let sp := point.sub
        (Vec3.smul ((nm i).dot point / (nm i).dot (nm i)) (nm i))
      let l2 := sp.dot sp
      if MAX_RADIUS * MAX_RADIUS < l2 then
        Vec3.distance2 (Vec3.smul MAX_RADIUS sp.normalize) point
      else if l2 < MIN_RADIUS * MIN_RADIUS then
        Vec3.distance2 (Vec3.smul MIN_RADIUS sp.normalize) point
      else ((nm i).dot point) * ((nm i).dot point) / (nm i).dot (nm i)
    List.foldl (fun d i => if faceCond i then min d (faceVal i) else d)
      d2 [0, 1, 2, 3]

/-- `VNode::priority(camera)`:
`(min_distance²) / distance2(camera).max(1e-12)`.  `Priority::from_f32`
(crate::cache, not among the sources) wraps the score; per the spec its
cutoff is 1.0, and the `f32` cast is dropped in the real model. -/
noncomputable def VNode.priority (n : VNode) (camera : Vec3) : ℝ :=
  n.minDistance * n.minDistance / max (n.distance2 camera) 1e-12

end Terra

namespace Terra

/-! ### Packing lemmas -/

theorem VNode.new_val {l f x y : Nat} (hl : l < 2 ^ 8) (hf : f < 8)
    (hx : x < 2 ^ 26) (hy : y < 2 ^ 26) :
    (VNode.new l f x y).val = l * 2 ^ 56 + f * 2 ^ 53 + y * 2 ^ 26 + x := by
  simp only [VNode.new]
  apply Nat.mod_eq_of_lt
  nlinarith [hl, hf, hx, hy]

theorem VNode.x_new {l f x y : Nat} (hl : l < 2 ^ 8) (hf : f < 8)
    (hx : x < 2 ^ 26) (hy : y < 2 ^ 26) :
    (VNode.new l f x y).x = x := by
  simp only [VNode.x, VNode.new_val hl hf hx hy]
  omega

theorem VNode.y_new {l f x y : Nat} (hl : l < 2 ^ 8) (hf : f < 8)
    (hx : x < 2 ^ 26) (hy : y < 2 ^ 26) :
    (VNode.new l f x y).y = y := by
  simp only [VNode.y, VNode.new_val hl hf hx hy]
  omega

theorem VNode.level_new {l f x y : Nat} (hl : l < 2 ^ 8) (hf : f < 8)
    (hx : x < 2 ^ 26) (hy : y < 2 ^ 26) :
    (VNode.new l f x y).level = l := by
  simp only [VNode.level, VNode.new_val hl hf hx hy]
  omega

theorem VNode.face_new {l f x y : Nat} (hl : l < 2 ^ 8) (hf : f < 8)
    (hx : x < 2 ^ 26) (hy : y < 2 ^ 26) :
    (VNode.new l f x y).face = f := by
  simp only [VNode.face, VNode.new_val hl hf hx hy]
  omega

/-- **C3** — For every VNode with in-range fields (`face < 6`,
`x < 2^level`, `y < 2^level`, `level ≤ 22`) at level ≥ 1, `parent()`
returns `Some((p, i))` with `i = (x mod 2) + 2·(y mod 2)` and
`p.children()[i] == n`; every level-0 node has no parent. -/
theorem c3_parent_children (l f x y : Nat) (hf : f < 6) (hl1 : 1 ≤ l)
    (hl : l ≤ 22) (hx : x < 2 ^ l) (hy : y < 2 ^ l) :
    (∃ p cs,
      (VNode.new l f x y).parent = some (p, x % 2 + 2 * (y % 2)) ∧
      p.children = some cs ∧
      cs[x % 2 + 2 * (y % 2)]? = some (VNode.new l f x y)) ∧
    (∀ f' : Nat, f' < 6 → (VNode.new 0 f' 0 0).parent = none) := by
  have hpow : 2 ^ l ≤ 2 ^ 26 := Nat.pow_le_pow_right (by norm_num) (by omega)
  have hl8 : l < 2 ^ 8 := by omega
  have hf8 : f < 8 := by omega
  have hx26 : x < 2 ^ 26 := lt_of_lt_of_le hx hpow
  have hy26 : y < 2 ^ 26 := lt_of_lt_of_le hy hpow
  have hl8' : l - 1 < 2 ^ 8 := by omega
  have hx26' : x / 2 < 2 ^ 26 := by omega
  have hy26' : y / 2 < 2 ^ 26 := by omega
  constructor
  · refine ⟨VNode.new (l - 1) f (x / 2) (y / 2),
      [VNode.new (l - 1 + 1) f (x / 2 * 2) (y / 2 * 2),
       VNode.new (l - 1 + 1) f (x / 2 * 2 + 1) (y / 2 * 2),
       VNode.new (l - 1 + 1) f (x / 2 * 2) (y / 2 * 2 + 1),
       VNode.new (l - 1 + 1) f (x / 2 * 2 + 1) (y / 2 * 2 + 1)], ?_, ?_, ?_⟩
    · simp only [VNode.parent, VNode.level_new hl8 hf8 hx26 hy26,
        VNode.face_new hl8 hf8 hx26 hy26, VNode.x_new hl8 hf8 hx26 hy26,
        VNode.y_new hl8 hf8 hx26 hy26]
      rw [if_neg (by omega)]
      congr 2
      omega
    · simp only [VNode.children, VNode.level_new hl8' hf8 hx26' hy26',
        VNode.face_new hl8' hf8 hx26' hy26', VNode.x_new hl8' hf8 hx26' hy26',
        VNode.y_new hl8' hf8 hx26' hy26']
      rw [if_pos (by omega)]
    · have hx2 := Nat.mod_two_eq_zero_or_one x
      have hy2 := Nat.mod_two_eq_zero_or_one y
      rcases hx2 with hx2 | hx2 <;> rcases hy2 with hy2 | hy2 <;>
        · rw [hx2, hy2]
          norm_num
          rw [show l - 1 + 1 = l by omega]
          congr 1 <;> omega
  · intro f' hf'
    have h0 : (VNode.new 0 f' 0 0).level = 0 :=
      VNode.level_new (by norm_num) (by omega) (by norm_num) (by norm_num)
    simp [VNode.parent, h0]

/-! ### find_ancestor -/

/-- Invariant of the `find_ancestor` loop, by induction on the level. -/
theorem VNode.findAncestorAux_spec (visit : VNode → Bool) :
    ∀ l f x y g ox oy, f < 8 → l ≤ 22 → x < 2 ^ l → y < 2 ^ l →
      (∀ a g' ox' oy',
        VNode.findAncestorAux visit (VNode.new l f x y) g ox oy =
          some (a, g', ox', oy') →
        ∃ j, j ≤ l ∧
          visit (VNode.new (l - j) f (x / 2 ^ j) (y / 2 ^ j)) = true ∧
          (∀ j' < j,
            visit (VNode.new (l - j') f (x / 2 ^ j') (y / 2 ^ j')) = false) ∧
          a = VNode.new (l - j) f (x / 2 ^ j) (y / 2 ^ j) ∧ g' = g + j ∧
          ox' = ox + x % 2 ^ j * 2 ^ g ∧ oy' = oy + y % 2 ^ j * 2 ^ g) ∧
      (VNode.findAncestorAux visit (VNode.new l f x y) g ox oy = none →
        ∀ j ≤ l,
          visit (VNode.new (l - j) f (x / 2 ^ j) (y / 2 ^ j)) = false) := by
  intro l
  induction l with
  | zero =>
    intro f x y g ox oy hf hl hx hy
    have hx0 : x = 0 := by omega
    have hy0 : y = 0 := by omega
    subst hx0; subst hy0
    have hlev : (VNode.new 0 f 0 0).level = 0 :=
      VNode.level_new (by norm_num) (by omega) (by norm_num) (by norm_num)
    rw [VNode.findAncestorAux]
    by_cases hv : visit (VNode.new 0 f 0 0) = true
    · rw [if_pos hv]
      constructor
      · intro a g' ox' oy' hsome
        refine ⟨0, by omega, ?_, by omega, ?_⟩
        · simpa using hv
        · obtain ⟨rfl, rfl, rfl, rfl⟩ := hsome
          simp
      · intro hnone
        simp [if_pos hv] at hnone
    · rw [if_neg hv, dif_pos hlev]
      refine ⟨by simp, ?_⟩
      intro _ j hj
      have : j = 0 := by omega
      subst this
      simpa using hv
  | succ l ih =>
    intro f x y g ox oy hf hl hx hy
    have hl8 : l + 1 < 2 ^ 8 := by omega
    have hx26 : x < 2 ^ 26 :=
      lt_of_lt_of_le hx (Nat.pow_le_pow_right (by norm_num) (by omega))
    have hy26 : y < 2 ^ 26 :=
      lt_of_lt_of_le hy (Nat.pow_le_pow_right (by norm_num) (by omega))
    have hlev : (VNode.new (l + 1) f x y).level = l + 1 :=
      VNode.level_new hl8 hf hx26 hy26
    have hface : (VNode.new (l + 1) f x y).face = f :=
      VNode.face_new hl8 hf hx26 hy26
    have hxx : (VNode.new (l + 1) f x y).x = x := VNode.x_new hl8 hf hx26 hy26
    have hyy : (VNode.new (l + 1) f x y).y = y := VNode.y_new hl8 hf hx26 hy26
    rw [VNode.findAncestorAux]
    by_cases hv : visit (VNode.new (l + 1) f x y) = true
    · rw [if_pos hv]
      constructor
      · intro a g' ox' oy' hsome
        refine ⟨0, by omega, ?_, by omega, ?_⟩
        · simpa using hv
        · obtain ⟨rfl, rfl, rfl, rfl⟩ := hsome
          simp
          omega
      · intro hnone
        simp [if_pos hv] at hnone
    · rw [if_neg hv, dif_neg (by omega), hlev, hface, hxx, hyy]
      have hrec := ih f (x / 2) (y / 2) (g + 1) (ox + x % 2 * 2 ^ g)
        (oy + y % 2 * 2 ^ g) hf (by omega) (by omega) (by omega)
      have hdivx : ∀ j : Nat, x / 2 / 2 ^ j = x / 2 ^ (j + 1) := by
        intro j
        rw [Nat.div_div_eq_div_mul, ← pow_succ']
      have hdivy : ∀ j : Nat, y / 2 / 2 ^ j = y / 2 ^ (j + 1) := by
        intro j
        rw [Nat.div_div_eq_div_mul, ← pow_succ']
      have hmodx : ∀ j : Nat,
          x % 2 ^ (j + 1) = x % 2 + 2 * (x / 2 % 2 ^ j) := by
        intro j
        rw [pow_succ', Nat.mod_mul]
      have hmody : ∀ j : Nat,
          y % 2 ^ (j + 1) = y % 2 + 2 * (y / 2 % 2 ^ j) := by
        intro j
        rw [pow_succ', Nat.mod_mul]
      constructor
      · intro a g' ox' oy' hsome
        obtain ⟨j, hj, hvt, hmin, ha, hg', hox', hoy'⟩ :=
          hrec.1 a g' ox' oy' hsome
        refine ⟨j + 1, by omega, ?_, ?_, ?_, by omega, ?_, ?_⟩
        · rwa [show l + 1 - (j + 1) = l - j by omega, ← hdivx, ← hdivy]
        · intro j' hj'
          match j', hj' with
          | 0, _ => simpa using hv
          | j'' + 1, hj'' =>
            have := hmin j'' (by omega)
            rwa [show l + 1 - (j'' + 1) = l - j'' by omega, ← hdivx, ← hdivy]
        · rwa [show l + 1 - (j + 1) = l - j by omega, ← hdivx, ← hdivy]
        · rw [hox', hmodx j]
          ring
        · rw [hoy', hmody j]
          ring
      · intro hnone j hj
        match j, hj with
        | 0, _ => simpa using hv
        | j'' + 1, hj'' =>
          have := (hrec.2 hnone) j'' (by omega)
          rwa [show l + 1 - (j'' + 1) = l - j'' by omega, ← hdivx, ← hdivy]

/-- **C6** — `find_ancestor(pred)` returns the lowest ancestor satisfying
`pred` (the `j`-th iterated parent for the least such `j`, `self`
included), the number of generations skipped, and the offset of `self`
within that ancestor (`x mod 2^j`, `y mod 2^j`); it returns `none` when no
ancestor satisfies `pred`.  In particular for `VNode(3, 2, 5, 6)` and
`pred = (level == 1)` it returns the level-1 ancestor `(face=2, x=1, y=1)`
with 2 generations and offset `(1, 2)`. -/
theorem c6_find_ancestor (visit : VNode → Bool) (l f x y : Nat)
    (hf : f < 6) (hl : l ≤ 22) (hx : x < 2 ^ l) (hy : y < 2 ^ l) :
    ((∀ a g ox oy,
        VNode.findAncestor visit (VNode.new l f x y) = some (a, g, ox, oy) →
        ∃ j, j ≤ l ∧
          visit (VNode.new (l - j) f (x / 2 ^ j) (y / 2 ^ j)) = true ∧
          (∀ j' < j,
            visit (VNode.new (l - j') f (x / 2 ^ j') (y / 2 ^ j')) = false) ∧
          a = VNode.new (l - j) f (x / 2 ^ j) (y / 2 ^ j) ∧ g = j ∧
          ox = x % 2 ^ j ∧ oy = y % 2 ^ j) ∧
      (VNode.findAncestor visit (VNode.new l f x y) = none →
        ∀ j ≤ l,
          visit (VNode.new (l - j) f (x / 2 ^ j) (y / 2 ^ j)) = false)) ∧
    VNode.findAncestor (fun a => a.level == 1) (VNode.new 3 2 5 6) =
      some (VNode.new 1 2 1 1, 2, 1, 2) := by
  constructor
  · have h := VNode.findAncestorAux_spec visit l f x y 0 0 0 (by omega) hl hx hy
    constructor
    · intro a g ox oy hsome
      obtain ⟨j, hj, hvt, hmin, ha, hg, hox, hoy⟩ := h.1 a g ox oy hsome
      exact ⟨j, hj, hvt, hmin, ha, by omega, by simpa using hox,
        by simpa using hoy⟩
    · exact h.2
  · rw [VNode.findAncestor, VNode.findAncestorAux]
    norm_num [VNode.new, VNode.level, VNode.face, VNode.x, VNode.y]
    rw [VNode.findAncestorAux]
    norm_num [VNode.new, VNode.level, VNode.face, VNode.x, VNode.y]
    rw [VNode.findAncestorAux]
    norm_num [VNode.new, VNode.level, VNode.face, VNode.x, VNode.y]

/-- **C6 witness** — instantiation of the general part at
`VNode(3, 2, 5, 6)` with `pred = (level == 1)`. -/
theorem c6_find_ancestor_witness :
    ∃ a g ox oy,
      VNode.findAncestor (fun n => n.level == 1) (VNode.new 3 2 5 6) =
        some (a, g, ox, oy) ∧
      a = VNode.new (3 - g) 2 (5 / 2 ^ g) (6 / 2 ^ g) ∧
      ox = 5 % 2 ^ g ∧ oy = 6 % 2 ^ g := by
  have h := c6_find_ancestor (fun n => n.level == 1) 3 2 5 6 (by norm_num)
    (by norm_num) (by norm_num) (by norm_num)
  exact ⟨VNode.new 1 2 1 1, 2, 1, 2, h.2, by norm_num, by norm_num,
    by norm_num⟩

/-- **C3 witness** — instantiation at `VNode(level=2, face=1, x=3, y=2)`. -/
theorem c3_parent_children_witness :
    (∃ p cs,
      (VNode.new 2 1 3 2).parent = some (p, 3 % 2 + 2 * (2 % 2)) ∧
      p.children = some cs ∧
      cs[3 % 2 + 2 * (2 % 2)]? = some (VNode.new 2 1 3 2)) ∧
    (∀ f' : Nat, f' < 6 → (VNode.new 0 f' 0 0).parent = none) :=
  c3_parent_children 2 1 3 2 (by norm_num) (by norm_num) (by norm_num)
    (by norm_num) (by norm_num)

/-! ### MapFile theorems -/

/-- **C5** — If the stored version value parses to an integer `k < 2`,
`MapFile::new` drops the `tiles` and `textures` trees and rewrites the
version key to `"2"` (byte 50); in particular a database whose version is
`"1"` (byte 49) is cleared, and a subsequent open reports version `"2"`
with both trees still empty. -/
theorem c5_version_migration (db : Db) (v : List Nat) (k : Int)
    (hv : db.version = some v) (hu : validUtf8 v = true)
    (hp : parseI32 v = some k) (hk : k < 2) :
    mapfileNew db = some ⟨some [50], [], []⟩ ∧
    (∀ tiles textures,
      mapfileNew ⟨some [49], tiles, textures⟩ = some ⟨some [50], [], []⟩) ∧
    mapfileNew ⟨some [50], [], []⟩ = some ⟨some [50], [], []⟩ := by
  refine ⟨?_, ?_, by rfl⟩
  · simp only [mapfileNew, hv, hu, if_true, hp, if_pos hk]
  · intro tiles textures
    have h49 : validUtf8 [49] = true := by decide
    have hp49 : parseI32 [49] = some 1 := by decide
    simp only [mapfileNew, h49, if_true, hp49]
    norm_num

/-- **C5 witness** — a database whose version value is `"1"` and whose
trees are nonempty. -/
theorem c5_version_migration_witness :
    mapfileNew ⟨some [49],
      [(⟨LayerType.Albedo, VNode.new 0 0 0 0⟩, ⟨0, TileState.Base⟩)],
      [([97], [98])]⟩ = some ⟨some [50], [], []⟩ :=
  (c5_version_migration _ [49] 1 rfl (by decide) (by decide)
    (by norm_num)).1

/-- **C10** — `MapFile::new` with no stored version key treats the
version as current (2) and drops nothing; a non-UTF-8 version value is
treated as `"0"` and clears both trees; a UTF-8 version value that does
not parse as an integer makes `MapFile::new` panic. -/
theorem c10_version_edge_cases (db db' db'' : Db) (v v' : List Nat)
    (hnone : db.version = none)
    (hv' : db'.version = some v) (hu' : validUtf8 v = false)
    (hv'' : db''.version = some v') (hu'' : validUtf8 v' = true)
    (hp'' : parseI32 v' = none) :
    mapfileNew db = some { db with version := some [50] } ∧
    mapfileNew db' = some ⟨some [50], [], []⟩ ∧
    mapfileNew db'' = none := by
  refine ⟨?_, ?_, ?_⟩
  · simp [mapfileNew, hnone]
  · have h0 : parseI32 [48] = some 0 := by decide
    simp [mapfileNew, hv', hu', h0]
  · simp [mapfileNew, hv'', hu'', hp'']

/-- **C10 witness** — version key absent, version = the single byte
`0xFF` (invalid UTF-8), and version = `"abc"` (valid UTF-8, not an
integer). -/
theorem c10_version_edge_cases_witness :
    mapfileNew ⟨none, [(⟨LayerType.Normals, VNode.new 0 3 0 0⟩,
        ⟨0, TileState.Generated⟩)], []⟩ =
      some ⟨some [50], [(⟨LayerType.Normals, VNode.new 0 3 0 0⟩,
        ⟨0, TileState.Generated⟩)], []⟩ ∧
    mapfileNew ⟨some [255], [(⟨LayerType.Normals, VNode.new 0 3 0 0⟩,
        ⟨0, TileState.Generated⟩)], []⟩ = some ⟨some [50], [], []⟩ ∧
    mapfileNew ⟨some [97, 98, 99], [], []⟩ = none :=
  c10_version_edge_cases _ _ _ [255] [97, 98, 99] rfl rfl (by decide) rfl
    (by decide) (by decide)

/-- **C9** — every `TileMeta` persisted through `write_tile` or
`reload_tile_state` has `crc32 = 0`: both preserve the all-zero-crc32
invariant of the tiles tree, the record `write_tile` inserts is exactly
`{crc32: 0, state: Base/Generated}`, and the persisted metadata does not
depend on the tile contents (no checksum of the data is ever stored). -/
theorem c9_crc32_zero (t : TilesTree) (layer : LayerType) (node : VNode)
    (data data' : List Nat) (base fileExists : Bool)
    (h : ∀ kv ∈ t, (kv : TileKey × TileMeta).2.crc32 = 0) :
    (∀ kv ∈ (writeTile t layer node data base).1,
      (kv : TileKey × TileMeta).2.crc32 = 0) ∧
    (∀ kv ∈ (reloadTileState t layer node base fileExists).2,
      (kv : TileKey × TileMeta).2.crc32 = 0) ∧
    tilesGet (writeTile t layer node data base).1 ⟨layer, node⟩ =
      some ⟨0, if base then TileState.Base else TileState.Generated⟩ ∧
    (writeTile t layer node data base).1 =
      (writeTile t layer node data' base).1 := by
  have hins : ∀ (k : TileKey) (m : TileMeta), m.crc32 = 0 →
      ∀ kv ∈ tilesInsert t k m, (kv : TileKey × TileMeta).2.crc32 = 0 := by
    intro k m hm kv hkv
    simp only [tilesInsert, List.mem_cons, List.mem_filter] at hkv
    rcases hkv with rfl | ⟨hkv, _⟩
    · exact hm
    · exact h kv hkv
  refine ⟨?_, ?_, ?_, rfl⟩
  · show ∀ kv ∈ tilesInsert t ⟨layer, node⟩
        ⟨0, if base then TileState.Base else TileState.Generated⟩,
        (kv : TileKey × TileMeta).2.crc32 = 0
    exact hins _ _ rfl
  · simp only [reloadTileState]
    cases htg : tilesGet t ⟨layer, node⟩ with
    | none =>
      simp only [htg]
      exact hins _ _ rfl
    | some meta =>
      simp only [htg]
      by_cases hst : meta.state =
          (if base && fileExists then TileState.Base
           else if base then TileState.MissingBase
           else if fileExists then TileState.Generated
           else TileState.Missing)
      · rw [if_pos hst]
        exact h
      · rw [if_neg hst]
        exact hins _ _ rfl
  · simp [writeTile, tilesGet, tilesInsert]

/-- **C9 witness** — a one-entry tiles tree with `crc32 = 0`. -/
theorem c9_crc32_zero_witness :
    (∀ kv ∈ (writeTile [(⟨LayerType.Albedo, VNode.new 0 0 0 0⟩,
        ⟨0, TileState.Base⟩)] LayerType.Heightmaps (VNode.new 0 1 0 0)
        [1, 2] true).1, (kv : TileKey × TileMeta).2.crc32 = 0) ∧
    (∀ kv ∈ (reloadTileState [(⟨LayerType.Albedo, VNode.new 0 0 0 0⟩,
        ⟨0, TileState.Base⟩)] LayerType.Heightmaps (VNode.new 0 1 0 0)
        true true).2, (kv : TileKey × TileMeta).2.crc32 = 0) ∧
    tilesGet (writeTile [(⟨LayerType.Albedo, VNode.new 0 0 0 0⟩,
        ⟨0, TileState.Base⟩)] LayerType.Heightmaps (VNode.new 0 1 0 0)
        [1, 2] true).1 ⟨LayerType.Heightmaps, VNode.new 0 1 0 0⟩ =
      some ⟨0, if true then TileState.Base else TileState.Generated⟩ ∧
    (writeTile [(⟨LayerType.Albedo, VNode.new 0 0 0 0⟩,
        ⟨0, TileState.Base⟩)] LayerType.Heightmaps (VNode.new 0 1 0 0)
        [1, 2] true).1 =
      (writeTile [(⟨LayerType.Albedo, VNode.new 0 0 0 0⟩,
        ⟨0, TileState.Base⟩)] LayerType.Heightmaps (VNode.new 0 1 0 0)
        [3] true).1 :=
  c9_crc32_zero _ _ _ [1, 2] [3] true true (by decide)

/-- **C1 counterexample** — for the downloadable layer `Albedo` with the
tile file missing and a non-success HTTP response, `read_tile` panics
(aborting the process); it does not return the `TileMissing` error the
claim asserts. -/
theorem c1_counterexample :
    (readTile LayerType.Albedo false [] false []).1 ≠
      ReadTileResult.tileMissing ∧
    (readTile LayerType.Albedo false [] false []).1 =
      ReadTileResult.panicked := by
  decide

/-- **C1 (amended)** — when the tile file is missing: for a downloadable
layer (Albedo, Heightmaps, Roughness) and an HTTP success, `read_tile`
persists the body via `write_tile` with state `Base` and returns it; for
a non-downloadable layer it fails with the `TileMissing` error; for a
downloadable layer and a non-success HTTP response it panics instead of
returning an error.  (When the file exists its contents are returned.) -/
theorem c1_read_tile (layer : LayerType) (fc hb : List Nat) :
    (∀ hs hbody, readTile layer true fc hs hbody =
      (ReadTileResult.ok fc, none)) ∧
    (downloadableLayer layer = true →
      readTile layer false fc true hb =
        (ReadTileResult.ok hb, some ⟨0, TileState.Base⟩)) ∧
    (downloadableLayer layer = false →
      ∀ hs, readTile layer false fc hs hb =
        (ReadTileResult.tileMissing, none)) ∧
    (downloadableLayer layer = true →
      readTile layer false fc false hb =
        (ReadTileResult.panicked, none)) := by
  refine ⟨fun hs hbody => rfl, fun hd => ?_, fun hd hs => ?_, fun hd => ?_⟩
  · simp [readTile, hd]
  · simp [readTile, hd]
  · simp [readTile, hd]

/-- **C1 witness** — missing file with: Heightmaps + HTTP success,
Normals (non-downloadable), and Heightmaps + HTTP failure. -/
theorem c1_read_tile_witness :
    readTile LayerType.Heightmaps false [] true [9] =
      (ReadTileResult.ok [9], some ⟨0, TileState.Base⟩) ∧
    readTile LayerType.Normals false [] true [9] =
      (ReadTileResult.tileMissing, none) ∧
    readTile LayerType.Heightmaps false [] false [9] =
      (ReadTileResult.panicked, none) :=
  ⟨(c1_read_tile LayerType.Heightmaps [] [9]).2.1 rfl,
   (c1_read_tile LayerType.Normals [] [9]).2.2.1 rfl true,
   (c1_read_tile LayerType.Heightmaps [] [9]).2.2.2 rfl⟩

/-! ### generate_displacements theorems -/

theorem flatMap_length_const {α β : Type} (g : α → List β) (k : Nat)
    (hg : ∀ a, (g a).length = k) :
    ∀ l : List α, (l.flatMap g).length = k * l.length := by
  intro l
  induction l with
  | nil => simp
  | cons a l ih =>
    simp only [List.flatMap_cons, List.length_append, hg, ih,
      List.length_cons]
    ring

theorem flatMap_getElem_const {α β : Type} (g : α → List β) (k : Nat)
    (hg : ∀ a, (g a).length = k) :
    ∀ (l : List α) (i r : Nat) (hi : i < l.length), r < k →
      (l.flatMap g)[k * i + r]? = (g l[i])[r]? := by
  intro l
  induction l with
  | nil => intro i r hi _; simp at hi
  | cons a l ih =>
    intro i r hi hr
    cases i with
    | zero =>
      simp only [List.flatMap_cons, Nat.mul_zero, Nat.zero_add,
        List.getElem_cons_zero]
      rw [List.getElem?_append_left (by rw [hg]; exact hr)]
    | succ i =>
      have hlen : k * (i + 1) + r = (g a).length + (k * i + r) := by
        rw [hg]; ring
      simp only [List.flatMap_cons, List.getElem_cons_succ]
      rw [hlen, List.getElem?_append_right (Nat.le_add_right _ _),
        Nat.add_sub_cancel_left]
      exact ih i r (by simpa using hi) hr

/-- The sample `(yi, xi)` of a displacement tile, channel `c`. -/
theorem dispTileData_getElem {α : Type} [Zero α]
    (hget : Nat → Nat → Nat → Nat → α) (hm ox oy step s R yi xi c : Nat)
    (hyi : yi < R) (hxi : xi < R) (hc : c < 4) :
    (dispTileData hget hm ox oy step s R)[4 * (yi * R + xi) + c]? =
    [(0 : α), hget hm ((xi * step + ox + s) % 65536)
        ((yi * step + oy + s) % 65536) 0, 0, 0][c]? := by
  have hg1 : ∀ y x : Nat,
      ([(0 : α), hget hm ((x * step + ox + s) % 65536)
        ((y * step + oy + s) % 65536) 0, 0, 0] : List α).length = 4 :=
    fun _ _ => rfl
  have hG : ∀ y : Nat,
      ((List.range R).flatMap fun x =>
        [(0 : α), hget hm ((x * step + ox + s) % 65536)
          ((y * step + oy + s) % 65536) 0, 0, 0]).length = 4 * R := by
    intro y
    rw [flatMap_length_const _ 4 (hg1 y) (List.range R), List.length_range]
  have hidx : 4 * (yi * R + xi) + c = 4 * R * yi + (4 * xi + c) := by ring
  rw [dispTileData, hidx,
    flatMap_getElem_const _ (4 * R) hG (List.range R) yi (4 * xi + c)
      (by simpa using hyi) (by omega)]
  simp only [List.getElem_range]
  rw [flatMap_getElem_const _ 4 (hg1 yi) (List.range R) xi c
    (by simpa using hxi) hc]
  simp only [List.getElem_range]

/-- **C7** — every sample of every displacement tile produced by
`generate_displacements` consists of four written f32 channels whose
second channel is the height sampled from the (possibly ancestor)
heightmap selected by `dispSource`, and whose first, third and fourth
channels are written as zeros. -/
theorem c7_displacement_channels {α : Type} [Zero α]
    (p : DispParams) (nodes : List VNode)
    (hget : Nat → Nat → Nat → Nat → α) (i hm ox oy step : Nat)
    (hsrc : dispSource p nodes i = some (hm, ox, oy, step)) :
    ∃ data, generateDisplacementTile p nodes hget i = some data ∧
      data.length = 4 * (p.heightsResolution * p.heightsResolution) ∧
      ∀ yi xi, yi < p.heightsResolution → xi < p.heightsResolution →
        data[4 * (yi * p.heightsResolution + xi)]? = some 0 ∧
        data[4 * (yi * p.heightsResolution + xi) + 1]? =
          some (hget hm ((xi * step + ox + p.skirt) % 65536)
            ((yi * step + oy + p.skirt) % 65536) 0) ∧
        data[4 * (yi * p.heightsResolution + xi) + 2]? = some 0 ∧
        data[4 * (yi * p.heightsResolution + xi) + 3]? = some 0 := by
  refine ⟨dispTileData hget hm ox oy step p.skirt p.heightsResolution,
    ?_, ?_, ?_⟩
  · rw [generateDisplacementTile, hsrc]
    rfl
  · have hg1 : ∀ y x : Nat,
        ([(0 : α), hget hm ((x * step + ox + p.skirt) % 65536)
          ((y * step + oy + p.skirt) % 65536) 0, 0, 0] : List α).length = 4 :=
      fun _ _ => rfl
    have hG : ∀ y : Nat,
        ((List.range p.heightsResolution).flatMap fun x =>
          [(0 : α), hget hm ((x * step + ox + p.skirt) % 65536)
            ((y * step + oy + p.skirt) % 65536) 0, 0, 0]).length =
          4 * p.heightsResolution := by
      intro y
      rw [flatMap_length_const _ 4 (hg1 y)
        (List.range p.heightsResolution), List.length_range]
    rw [dispTileData, flatMap_length_const _ (4 * p.heightsResolution) hG
      (List.range p.heightsResolution), List.length_range]
    ring
  · intro yi xi hyi hxi
    exact ⟨dispTileData_getElem hget hm ox oy step p.skirt
        p.heightsResolution yi xi 0 hyi hxi (by norm_num),
      dispTileData_getElem hget hm ox oy step p.skirt
        p.heightsResolution yi xi 1 hyi hxi (by norm_num),
      dispTileData_getElem hget hm ox oy step p.skirt
        p.heightsResolution yi xi 2 hyi hxi (by norm_num),
      dispTileData_getElem hget hm ox oy step p.skirt
        p.heightsResolution yi xi 3 hyi hxi (by norm_num)⟩

/-- **C7 witness** — a 2×2 tile over a single root node with a constant
heightmap sample of 7. -/
theorem c7_displacement_channels_witness :
    ∃ data, generateDisplacementTile ⟨2, 9, 0, 2, 10⟩ [VNode.new 0 0 0 0]
        (fun _ _ _ _ => (7 : Int)) 0 = some data ∧
      data.length = 4 * (2 * 2) ∧
      ∀ yi xi, yi < 2 → xi < 2 →
        data[4 * (yi * 2 + xi)]? = some 0 ∧
        data[4 * (yi * 2 + xi) + 1]? = some 7 ∧
        data[4 * (yi * 2 + xi) + 2]? = some 0 ∧
        data[4 * (yi * 2 + xi) + 3]? = some 0 :=
  c7_displacement_channels ⟨2, 9, 0, 2, 10⟩ [VNode.new 0 0 0 0]
    (fun _ _ _ _ => (7 : Int)) 0 0 0 0 8 (by decide)

/-! ### Geometry: warp lemmas -/

theorem warp_one : warp 1 = 1 := by
  rw [warp, rustSignum, if_neg (by norm_num), abs_one,
    show (1.4511 : ℝ) * 1.4511 - 1.8044 * 1 = 0.5489 ^ 2 by norm_num,
    Real.sqrt_sq (by norm_num)]
  norm_num

theorem warp_neg_one : warp (-1) = -1 := by
  rw [warp, rustSignum, if_pos (by norm_num), abs_neg, abs_one,
    show (1.4511 : ℝ) * 1.4511 - 1.8044 * 1 = 0.5489 ^ 2 by norm_num,
    Real.sqrt_sq (by norm_num)]
  norm_num

theorem warp_zero : warp 0 = 0 := by
  rw [warp, rustSignum, if_neg (by norm_num), abs_zero,
    show (1.4511 : ℝ) * 1.4511 - 1.8044 * 0 = 1.4511 ^ 2 by norm_num,
    Real.sqrt_sq (by norm_num)]
  norm_num

theorem unwarp_one : unwarp 1 = 1 := by
  rw [unwarp, abs_one]
  norm_num

theorem unwarp_zero : unwarp 0 = 0 := by
  rw [unwarp]
  norm_num

/-- **C8** — `from_cspace` panics (via `cspace_to_fspace`) for every
input with no coordinate exactly `±1`; and for the far-edge input
`(1, 1, 0)` at level 1 the returned node's x field is `2 = 2^1`, outside
the documented range `[0, 2^level)`. -/
theorem c8_from_cspace :
    (∀ (c : Vec3) (level : Nat),
      c.x ≠ 1 → c.x ≠ -1 → c.y ≠ 1 → c.y ≠ -1 → c.z ≠ 1 → c.z ≠ -1 →
      fromCspace c level = none) ∧
    (∃ u v m, fromCspace ⟨1, 1, 0⟩ 1 = some (m, u, v) ∧
      m.x = 2 ^ 1 ∧ ¬ m.x < 2 ^ 1) := by
  constructor
  · intro c level h1 h2 h3 h4 h5 h6
    rw [fromCspace, cspaceToFspace, if_neg h1, if_neg h2, if_neg h3,
      if_neg h4, if_neg h5, if_neg h6]
    rfl
  · have hx : f64AsU32 ((unwarp 1 * 0.5 + 0.5) * ((2 ^ 1 : Nat) : ℝ)) = 2 := by
      rw [unwarp_one, f64AsU32,
        show ((1 : ℝ) * 0.5 + 0.5) * ((2 ^ 1 : Nat) : ℝ) = ((2 : ℤ) : ℝ) by
          norm_num,
        Int.floor_intCast]
      rfl
    have hy : f64AsU32 ((unwarp (-0) * 0.5 + 0.5) * ((2 ^ 1 : Nat) : ℝ)) = 1 := by
      rw [show (-0 : ℝ) = 0 by norm_num, unwarp_zero, f64AsU32,
        show ((0 : ℝ) * 0.5 + 0.5) * ((2 ^ 1 : Nat) : ℝ) = ((1 : ℤ) : ℝ) by
          norm_num,
        Int.floor_intCast]
      rfl
    refine ⟨rustFract ((unwarp 1 * 0.5 + 0.5) * ((2 ^ 1 : Nat) : ℝ)),
      rustFract ((unwarp (-0) * 0.5 + 0.5) * ((2 ^ 1 : Nat) : ℝ)),
      VNode.new 1 0 2 1, ?_, by decide, by decide⟩
    rw [fromCspace, cspaceToFspace, if_pos rfl]
    simp only [Option.map_some']
    rw [hx, hy]

/-- **C8 witness** — the interior point `(1/2, 1/2, 1/2)` is on no cube
face, so `from_cspace` panics there. -/
theorem c8_from_cspace_witness :
    fromCspace ⟨1/2, 1/2, 1/2⟩ 3 = none :=
  c8_from_cspace.1 ⟨1/2, 1/2, 1/2⟩ 3 (by norm_num) (by norm_num)
    (by norm_num) (by norm_num) (by norm_num) (by norm_num)

/-! ### Geometry: warp/unwarp inversion -/

theorem warp_nonneg_lt_one {t : ℝ} (h0 : 0 ≤ t) (h1 : t < 1) :
    0 ≤ warp t ∧ warp t < 1 := by
  rw [warp, rustSignum, if_neg (by linarith), abs_of_nonneg h0, one_mul]
  have harg : (0 : ℝ) ≤ 1.4511 * 1.4511 - 1.8044 * t := by nlinarith
  have hle : Real.sqrt (1.4511 * 1.4511 - 1.8044 * t) ≤ 1.4511 := by
    calc Real.sqrt (1.4511 * 1.4511 - 1.8044 * t) ≤
        Real.sqrt (1.4511 ^ 2) := by
          apply Real.sqrt_le_sqrt
          nlinarith
      _ = 1.4511 := Real.sqrt_sq (by norm_num)
  have hgt : (0.5489 : ℝ) < Real.sqrt (1.4511 * 1.4511 - 1.8044 * t) := by
    have h2 : (0.5489 : ℝ) = Real.sqrt (0.5489 ^ 2) :=
      (Real.sqrt_sq (by norm_num)).symm
    rw [h2]
    apply Real.sqrt_lt_sqrt (by norm_num)
    nlinarith
  constructor
  · apply div_nonneg (by linarith) (by norm_num)
  · rw [div_lt_one (by norm_num)]
    linarith

theorem warp_neg (t : ℝ) : warp (-t) = -warp t := by
  rcases lt_trichotomy t 0 with h | h | h
  · rw [warp, warp, rustSignum, rustSignum, if_pos h,
      if_neg (by linarith), abs_neg]
    ring
  · subst h
    rw [neg_zero, warp_zero, neg_zero]
  · rw [warp, warp, rustSignum, rustSignum,
      if_pos (show -t < 0 by linarith), if_neg (show ¬t < 0 by linarith),
      abs_neg]
    ring

theorem unwarp_neg (t : ℝ) : unwarp (-t) = -unwarp t := by
  rw [unwarp, unwarp, abs_neg]
  ring

theorem abs_warp_lt_one {t : ℝ} (h : |t| < 1) : |warp t| < 1 := by
  rcases le_or_lt 0 t with ht | ht
  · have := warp_nonneg_lt_one ht (by rw [abs_of_nonneg ht] at h; exact h)
    rw [abs_of_nonneg this.1]
    exact this.2
  · have hb : 0 ≤ -t := by linarith
    have := warp_nonneg_lt_one hb (by rw [abs_of_neg ht] at h; exact h)
    rw [warp_neg] at this
    rw [abs_lt]
    constructor <;> linarith [this.1, this.2]

theorem unwarp_warp {t : ℝ} (h : |t| ≤ 1) : unwarp (warp t) = t := by
  suffices key : ∀ u : ℝ, 0 ≤ u → u ≤ 1 → unwarp (warp u) = u by
    rcases le_or_lt 0 t with ht | ht
    · exact key t ht (by rw [abs_of_nonneg ht] at h; exact h)
    · have h2 := key (-t) (by linarith) (by rw [abs_of_neg ht] at h; exact h)
      rw [warp_neg, unwarp_neg] at h2
      linarith
  intro u h0 h1
  have harg : (0 : ℝ) ≤ 1.4511 * 1.4511 - 1.8044 * u := by nlinarith
  set sq := Real.sqrt (1.4511 * 1.4511 - 1.8044 * u) with hsq
  have hs2 : sq ^ 2 = 1.4511 * 1.4511 - 1.8044 * u := Real.sq_sqrt harg
  have hsle : sq ≤ 1.4511 := by
    rw [hsq]
    calc Real.sqrt (1.4511 * 1.4511 - 1.8044 * u) ≤
        Real.sqrt (1.4511 ^ 2) := by
          apply Real.sqrt_le_sqrt
          nlinarith
      _ = 1.4511 := Real.sqrt_sq (by norm_num)
  have hw : warp u = (1.4511 - sq) / 0.9022 := by
    rw [warp, rustSignum, if_neg (by linarith), abs_of_nonneg h0, one_mul,
      hsq]
  have hwnn : 0 ≤ warp u := by
    rw [hw]
    apply div_nonneg (by linarith) (by norm_num)
  have hh1 : sq = 1.4511 - 0.9022 * warp u := by
    rw [hw]
    ring
  rw [unwarp, abs_of_nonneg hwnn]
  linear_combination ((sq + 1.4511 - 0.9022 * warp u) / 1.8044) * hh1 -
    (1 / 1.8044) * hs2

/-- `cspace_to_fspace` inverts `fspace_to_cspace` on face interiors:
for `face < 6` and face coordinates strictly inside `(-1, 1)`, the guard
dispatch picks the original face and the inverse warp recovers the
original coordinates. -/
theorem cspaceToFspace_fspaceToCspace (n : VNode) (hface : n.face < 6)
    {fx fy : ℝ} (hfx : |fx| < 1) (hfy : |fy| < 1) :
    cspaceToFspace (n.fspaceToCspace fx fy) = some (n.face, fx, fy) := by
  have hwx := abs_warp_lt_one hfx
  have hwy := abs_warp_lt_one hfy
  rw [abs_lt] at hwx hwy
  have hx1 : warp fx ≠ 1 := ne_of_lt hwx.2
  have hx2 : warp fx ≠ -1 := ne_of_gt hwx.1
  have hx3 : -warp fx ≠ 1 := by intro hc; apply hx2; linarith
  have hx4 : -warp fx ≠ -1 := by intro hc; apply hx1; linarith
  have hy1 : warp fy ≠ 1 := ne_of_lt hwy.2
  have hy2 : warp fy ≠ -1 := ne_of_gt hwy.1
  have hy3 : -warp fy ≠ 1 := by intro hc; apply hy2; linarith
  have hy4 : -warp fy ≠ -1 := by intro hc; apply hy1; linarith
  have hux : unwarp (warp fx) = fx := unwarp_warp (le_of_lt hfx)
  have huy : unwarp (warp fy) = fy := unwarp_warp (le_of_lt hfy)
  rw [VNode.fspaceToCspace]
  have hface' := hface
  generalize hF : n.face = F at hface' ⊢
  interval_cases F
  · simp only []
    rw [cspaceToFspace, if_pos rfl]
    simp only [Option.map_some']
    rw [neg_neg, hux, huy]
  · simp only []
    rw [cspaceToFspace, if_neg (by norm_num), if_pos rfl]
    simp only [Option.map_some']
    rw [neg_neg, neg_neg, hux, huy]
  · simp only []
    rw [cspaceToFspace, if_neg hx1, if_neg hx2, if_pos rfl]
    simp only [Option.map_some']
    rw [hux, huy]
  · simp only []
    rw [cspaceToFspace, if_neg hx3, if_neg hx4, if_neg (by norm_num),
      if_pos rfl]
    simp only [Option.map_some']
    rw [neg_neg, hux, huy]
  · simp only []
    rw [cspaceToFspace, if_neg hx1, if_neg hx2, if_neg hy3, if_neg hy4,
      if_pos rfl]
    simp only [Option.map_some']
    rw [neg_neg, hux, huy]
  · simp only []
    rw [cspaceToFspace, if_neg hx3, if_neg hx4, if_neg hy3, if_neg hy4,
      if_neg (by norm_num), if_pos rfl]
    simp only [Option.map_some']
    rw [neg_neg, neg_neg, hux, huy]

/-- **C4** — the cube-space round trip: for a well-formed node and a
cell-registered sample strictly inside the node's cell
(`0 < cellFrac < 1` in both axes), `from_cspace(cell_position_cspace(x,
y, skirt, res), level)` returns the node itself. -/
theorem c4_from_cspace_roundtrip (l f nx ny : Nat) (hf : f < 6)
    (hl : l ≤ 22) (hnx : nx < 2 ^ l) (hny : ny < 2 ^ l) (x y : ℤ)
    (s r : Nat) (hfx0 : 0 < cellFrac x s r) (hfx1 : cellFrac x s r < 1)
    (hfy0 : 0 < cellFrac y s r) (hfy1 : cellFrac y s r < 1) :
    ∃ u v,
      fromCspace ((VNode.new l f nx ny).cellPositionCspace x y s r) l =
        some (VNode.new l f nx ny, u, v) := by
  have hl8 : l < 2 ^ 8 := by omega
  have hf8 : f < 8 := by omega
  have hx26 : nx < 2 ^ 26 :=
    lt_of_lt_of_le hnx (Nat.pow_le_pow_right (by norm_num) (by omega))
  have hy26 : ny < 2 ^ 26 :=
    lt_of_lt_of_le hny (Nat.pow_le_pow_right (by norm_num) (by omega))
  have hxa : (VNode.new l f nx ny).x = nx := VNode.x_new hl8 hf8 hx26 hy26
  have hya : (VNode.new l f nx ny).y = ny := VNode.y_new hl8 hf8 hx26 hy26
  have hla : (VNode.new l f nx ny).level = l :=
    VNode.level_new hl8 hf8 hx26 hy26
  have hfa : (VNode.new l f nx ny).face = f :=
    VNode.face_new hl8 hf8 hx26 hy26
  have hpow : (0 : ℝ) < ((2 ^ l : Nat) : ℝ) := by positivity
  set fx := cellFrac x s r
  set fy := cellFrac y s r
  set FX : ℝ := ((nx : ℝ) + fx) * (2 / ((2 ^ l : Nat) : ℝ)) - 1 with hFX
  set FY : ℝ := ((ny : ℝ) + fy) * (2 / ((2 ^ l : Nat) : ℝ)) - 1 with hFY
  have hnxr : (nx : ℝ) + 1 ≤ ((2 ^ l : Nat) : ℝ) := by
    have : (nx : ℝ) < ((2 ^ l : Nat) : ℝ) := by exact_mod_cast hnx
    have : (nx : Nat) + 1 ≤ 2 ^ l := hnx
    exact_mod_cast this
  have hnyr : (ny : ℝ) + 1 ≤ ((2 ^ l : Nat) : ℝ) := by
    have : (ny : Nat) + 1 ≤ 2 ^ l := hny
    exact_mod_cast this
  have hnx0 : (0 : ℝ) ≤ (nx : ℝ) := Nat.cast_nonneg nx
  have hny0 : (0 : ℝ) ≤ (ny : ℝ) := Nat.cast_nonneg ny
  have hFXb : |FX| < 1 := by
    rw [abs_lt, hFX]
    constructor
    · have hpos : 0 < ((nx : ℝ) + fx) * (2 / ((2 ^ l : Nat) : ℝ)) :=
        mul_pos (by linarith) (by positivity)
      linarith
    · have hlt : ((nx : ℝ) + fx) * (2 / ((2 ^ l : Nat) : ℝ)) < 2 := by
        rw [← mul_div_assoc, div_lt_iff₀ hpow]
        nlinarith
      linarith
  have hFYb : |FY| < 1 := by
    rw [abs_lt, hFY]
    constructor
    · have hpos : 0 < ((ny : ℝ) + fy) * (2 / ((2 ^ l : Nat) : ℝ)) :=
        mul_pos (by linarith) (by positivity)
      linarith
    · have hlt : ((ny : ℝ) + fy) * (2 / ((2 ^ l : Nat) : ℝ)) < 2 := by
        rw [← mul_div_assoc, div_lt_iff₀ hpow]
        nlinarith
      linarith
  have hdisp := cspaceToFspace_fspaceToCspace (VNode.new l f nx ny)
    (by rw [hfa]; exact hf) hFXb hFYb
  have hcell : (VNode.new l f nx ny).cellPositionCspace x y s r =
      (VNode.new l f nx ny).fspaceToCspace FX FY := by
    rw [VNode.cellPositionCspace, hxa, hya, hla, hFX, hFY]
  have hXval : (FX * 0.5 + 0.5) * ((2 ^ l : Nat) : ℝ) = (nx : ℝ) + fx := by
    rw [hFX]
    field_simp
    ring
  have hYval : (FY * 0.5 + 0.5) * ((2 ^ l : Nat) : ℝ) = (ny : ℝ) + fy := by
    rw [hFY]
    field_simp
    ring
  have hfloorX : ⌊(nx : ℝ) + fx⌋ = (nx : ℤ) := by
    rw [Int.floor_eq_iff]
    constructor
    · push_cast
      linarith
    · push_cast
      linarith
  have hfloorY : ⌊(ny : ℝ) + fy⌋ = (ny : ℤ) := by
    rw [Int.floor_eq_iff]
    constructor
    · push_cast
      linarith
    · push_cast
      linarith
  have hu32X : f64AsU32 ((FX * 0.5 + 0.5) * ((2 ^ l : Nat) : ℝ)) = nx := by
    rw [f64AsU32, hXval, hfloorX, Int.toNat_natCast]
    have : nx ≤ 2 ^ 32 - 1 := by omega
    omega
  have hu32Y : f64AsU32 ((FY * 0.5 + 0.5) * ((2 ^ l : Nat) : ℝ)) = ny := by
    rw [f64AsU32, hYval, hfloorY, Int.toNat_natCast]
    omega
  refine ⟨rustFract ((FX * 0.5 + 0.5) * ((2 ^ l : Nat) : ℝ)),
    rustFract ((FY * 0.5 + 0.5) * ((2 ^ l : Nat) : ℝ)), ?_⟩
  rw [fromCspace, hcell, hdisp, hfa]
  simp only [Option.map_some']
  rw [hu32X, hu32Y]

/-- **C4 witness** — root of face 4, sample (0,0) with skirt 0 and
resolution 1: the sample fraction is 1/2, inside the cell. -/
theorem c4_from_cspace_roundtrip_witness :
    (0 : ℝ) < cellFrac 0 0 1 ∧ cellFrac 0 0 1 < 1 ∧
    ∃ u v, fromCspace ((VNode.new 0 4 0 0).cellPositionCspace 0 0 0 1) 0 =
      some (VNode.new 0 4 0 0, u, v) := by
  have h0 : (0 : ℝ) < cellFrac 0 0 1 := by
    rw [cellFrac]
    norm_num
  have h1 : cellFrac 0 0 1 < 1 := by
    rw [cellFrac]
    norm_num
  exact ⟨h0, h1, c4_from_cspace_roundtrip 0 4 0 0 (by norm_num)
    (by norm_num) (by norm_num) (by norm_num) 0 0 0 1 h0 h1 h0 h1⟩

/-! ### Geometry: the root node of face 0 -/

theorem fspaceToCspace_face0 (n : VNode) (h : n.face = 0) (a b : ℝ) :
    n.fspaceToCspace a b = ⟨1, warp a, -warp b⟩ := by
  rw [VNode.fspaceToCspace, h]

theorem root0_level : (VNode.new 0 0 0 0).level = 0 := rfl

theorem root0_x : (VNode.new 0 0 0 0).x = 0 := rfl

theorem root0_y : (VNode.new 0 0 0 0).y = 0 := rfl

theorem root0_face : (VNode.new 0 0 0 0).face = 0 := rfl

theorem corner_val_00 :
    (VNode.new 0 0 0 0).gridPositionCspace 0 0 0 2 =
      ⟨1, -1, 1⟩ := by
  simp only [VNode.gridPositionCspace, root0_level, root0_x, root0_y]
  rw [fspaceToCspace_face0 _ root0_face]
  norm_num [warp_neg_one]

theorem corner_val_10 :
    (VNode.new 0 0 0 0).gridPositionCspace 1 0 0 2 =
      ⟨1, 1, 1⟩ := by
  simp only [VNode.gridPositionCspace, root0_level, root0_x, root0_y]
  rw [fspaceToCspace_face0 _ root0_face]
  norm_num [warp_one, warp_neg_one]

theorem corner_val_11 :
    (VNode.new 0 0 0 0).gridPositionCspace 1 1 0 2 =
      ⟨1, 1, -1⟩ := by
  simp only [VNode.gridPositionCspace, root0_level, root0_x, root0_y]
  rw [fspaceToCspace_face0 _ root0_face]
  norm_num [warp_one]

theorem corner_val_01 :
    (VNode.new 0 0 0 0).gridPositionCspace 0 1 0 2 =
      ⟨1, -1, -1⟩ := by
  simp only [VNode.gridPositionCspace, root0_level, root0_x, root0_y]
  rw [fspaceToCspace_face0 _ root0_face]
  norm_num [warp_one, warp_neg_one]

theorem corners_root0 : vnodeCorners (VNode.new 0 0 0 0) =
    ![⟨1, -1, 1⟩, ⟨1, 1, 1⟩, ⟨1, 1, -1⟩, ⟨1, -1, -1⟩] := by
  funext i
  fin_cases i <;>
    simp [vnodeCorners, corner_val_00, corner_val_10, corner_val_11,
      corner_val_01]

theorem normals_root0 : vnodeNormals (VNode.new 0 0 0 0) =
    ![⟨2, 0, -2⟩, ⟨2, -2, 0⟩, ⟨2, 0, 2⟩, ⟨2, 2, 0⟩] := by
  funext i
  fin_cases i <;>
    · simp [vnodeNormals, corners_root0, Vec3.cross, Vec3.neg]
      norm_num

theorem dist2_root0_cam1 :
    (VNode.new 0 0 0 0).distance2 ⟨6371001, 0, 0⟩ = 0 := by
  have hA : (0 : ℝ) ≤ Vec3.dot ⟨2, 0, -2⟩ ⟨6371001, 0, 0⟩ ∧
      (0 : ℝ) ≤ Vec3.dot ⟨2, -2, 0⟩ ⟨6371001, 0, 0⟩ ∧
      (0 : ℝ) ≤ Vec3.dot ⟨2, 0, 2⟩ ⟨6371001, 0, 0⟩ ∧
      (0 : ℝ) ≤ Vec3.dot ⟨2, 2, 0⟩ ⟨6371001, 0, 0⟩ := by
    norm_num [Vec3.dot]
  have hB : MIN_RADIUS * MIN_RADIUS <
      Vec3.dot ⟨6371001, 0, 0⟩ ⟨6371001, 0, 0⟩ ∧
      Vec3.dot ⟨6371001, 0, 0⟩ ⟨6371001, 0, 0⟩ <
        MAX_RADIUS * MAX_RADIUS := by
    norm_num [Vec3.dot, MIN_RADIUS, MAX_RADIUS, EARTH_RADIUS]
  simp only [VNode.distance2, normals_root0, corners_root0,
    Matrix.cons_val_zero, Matrix.cons_val_one, Matrix.cons_val_two,
    Matrix.cons_val_three, Matrix.head_cons, Matrix.tail_cons]
  rw [if_pos hA, if_pos hB]

theorem edge_val_cam2 (a b : ℝ) (ha : a * a = 1) (hb : b * b = 1) :
    Vec3.distance2
      (Vec3.smul (max MIN_RADIUS (min MAX_RADIUS
        (Vec3.dot ⟨-6371001, 0, 0⟩ (Vec3.normalize ⟨1, a, b⟩))))
        (Vec3.normalize ⟨1, a, b⟩)) ⟨-6371001, 0, 0⟩ =
    6370000 * 6370000 + 6371001 * 6371001 +
      2 * (6370000 * 6371001) / Real.sqrt 3 := by
  have hdotself : Vec3.dot ⟨1, a, b⟩ ⟨1, a, b⟩ = 3 := by
    simp only [Vec3.dot]
    nlinarith
  have hmag : Vec3.magnitude ⟨1, a, b⟩ = Real.sqrt 3 := by
    rw [Vec3.magnitude, hdotself]
  have hs3 : (0 : ℝ) < Real.sqrt 3 := Real.sqrt_pos.mpr (by norm_num)
  have hs23 : Real.sqrt 3 * Real.sqrt 3 = 3 :=
    Real.mul_self_sqrt (by norm_num)
  have hnorm : Vec3.normalize ⟨1, a, b⟩ =
      ⟨1 / Real.sqrt 3, a / Real.sqrt 3, b / Real.sqrt 3⟩ := by
    rw [Vec3.normalize, hmag]
    simp only [Vec3.smul, Vec3.mk.injEq]
    refine ⟨by ring, by ring, by ring⟩
  have hdot : Vec3.dot ⟨-6371001, 0, 0⟩ (Vec3.normalize ⟨1, a, b⟩) =
      -6371001 / Real.sqrt 3 := by
    rw [hnorm]
    simp only [Vec3.dot]
    ring
  have hdneg : -6371001 / Real.sqrt 3 < 0 :=
    div_neg_of_neg_of_pos (by norm_num) hs3
  have hmin : min MAX_RADIUS (-6371001 / Real.sqrt 3) =
      -6371001 / Real.sqrt 3 := by
    apply min_eq_right
    have : (0 : ℝ) < MAX_RADIUS := by norm_num [MAX_RADIUS, EARTH_RADIUS]
    linarith
  have hmax : max MIN_RADIUS (-6371001 / Real.sqrt 3) = MIN_RADIUS := by
    apply max_eq_left
    have : (0 : ℝ) < MIN_RADIUS := by norm_num [MIN_RADIUS, EARTH_RADIUS]
    linarith
  rw [hdot, hmin, hmax, hnorm,
    show MIN_RADIUS = 6370000 by norm_num [MIN_RADIUS, EARTH_RADIUS]]
  simp only [Vec3.distance2, Vec3.sub, Vec3.smul, Vec3.dot]
  have hsne : Real.sqrt 3 ≠ 0 := ne_of_gt hs3
  field_simp
  ring_nf
  nlinarith [hs23, ha, hb, hs3]

theorem dist2_root0_cam2 :
    (VNode.new 0 0 0 0).distance2 ⟨-6371001, 0, 0⟩ =
      6370000 * 6370000 + 6371001 * 6371001 +
        2 * (6370000 * 6371001) / Real.sqrt 3 := by
  have hnA : ¬((0 : ℝ) ≤ Vec3.dot ⟨2, 0, -2⟩ ⟨-6371001, 0, 0⟩ ∧
      (0 : ℝ) ≤ Vec3.dot ⟨2, -2, 0⟩ ⟨-6371001, 0, 0⟩ ∧
      (0 : ℝ) ≤ Vec3.dot ⟨2, 0, 2⟩ ⟨-6371001, 0, 0⟩ ∧
      (0 : ℝ) ≤ Vec3.dot ⟨2, 2, 0⟩ ⟨-6371001, 0, 0⟩) := by
    intro h
    have h1 := h.1
    norm_num [Vec3.dot] at h1
  simp only [VNode.distance2, normals_root0, corners_root0,
    Matrix.cons_val_zero, Matrix.cons_val_one, Matrix.cons_val_two,
    Matrix.cons_val_three, Matrix.head_cons, Matrix.tail_cons]
  rw [if_neg hnA]
  rw [edge_val_cam2 (-1) 1 (by norm_num) (by norm_num),
    edge_val_cam2 1 1 (by norm_num) (by norm_num),
    edge_val_cam2 1 (-1) (by norm_num) (by norm_num),
    edge_val_cam2 (-1) (-1) (by norm_num) (by norm_num)]
  simp only [min_self, List.foldl_cons, List.foldl_nil]
  norm_num [Vec3.cross, Vec3.dot, Vec3.sub, Vec3.neg]

theorem minDistance_root0 :
    (VNode.new 0 0 0 0).minDistance = Real.pi * 6371000 := by
  rw [VNode.minDistance, ROOT_SIDE_LENGTH, EARTH_CIRCUMFERENCE,
    EARTH_RADIUS, root0_level]
  norm_num
  ring

theorem priority_root0_cam1_gt_one :
    1 < (VNode.new 0 0 0 0).priority ⟨6371001, 0, 0⟩ := by
  rw [VNode.priority, dist2_root0_cam1, minDistance_root0,
    max_eq_right (by norm_num)]
  rw [lt_div_iff₀ (by norm_num)]
  nlinarith [Real.pi_gt_three]

theorem priority_root0_cam2_gt_one :
    1 < (VNode.new 0 0 0 0).priority ⟨-6371001, 0, 0⟩ := by
  rw [VNode.priority, dist2_root0_cam2, minDistance_root0]
  have hs3 : (0 : ℝ) < Real.sqrt 3 := Real.sqrt_pos.mpr (by norm_num)
  have hs17 : (1.7 : ℝ) < Real.sqrt 3 := by
    rw [show (1.7 : ℝ) = Real.sqrt (1.7 ^ 2) from
      (Real.sqrt_sq (by norm_num)).symm]
    exact Real.sqrt_lt_sqrt (by norm_num) (by norm_num)
  have hdiv_pos : (0 : ℝ) ≤ 2 * (6370000 * 6371001) / Real.sqrt 3 :=
    div_nonneg (by norm_num) (le_of_lt hs3)
  have hdiv_lt : 2 * (6370000 * 6371001) / Real.sqrt 3 <
      2 * (6370000 * 6371001) / 1.7 :=
    div_lt_div_of_pos_left (by norm_num) (by norm_num) hs17
  rw [max_eq_left (by nlinarith)]
  rw [one_lt_div (by nlinarith)]
  nlinarith [Real.pi_gt_d2]

/-- **C2 counterexample** — with the camera at `(-R_earth - 1, 0, 0)`,
the priority of face 0's level-0 root is NOT less than 1.0 (it is about
3.13: `min_distance` of a root is `π·R_earth ≈ 20015 km`, larger than any
camera–volume distance near the planet). -/
theorem c2_counterexample :
    ¬ (VNode.new 0 0 0 0).priority ⟨-6371001, 0, 0⟩ < 1 :=
  not_lt_of_gt priority_root0_cam2_gt_one

/-- **C2 (amended)** — for the level-0 root node of face 0, the priority
with the camera at `(R_earth + 1, 0, 0)` is greater than 1.0, and the
priority with the camera at `(-R_earth - 1, 0, 0)` is ALSO greater than
1.0 (not less): a root's `min_distance = 2·side_length(root)` exceeds the
distance to the node's shell volume from any near-planet camera. -/
theorem c2_priority_root0 :
    1 < (VNode.new 0 0 0 0).priority ⟨6371001, 0, 0⟩ ∧
    1 < (VNode.new 0 0 0 0).priority ⟨-6371001, 0, 0⟩ :=
  ⟨priority_root0_cam1_gt_one, priority_root0_cam2_gt_one⟩

end Terra
